import Mathlib

/-!
Shallow embedding of the `cors` middleware (src/lib/index.js) and proofs of
the specification claims about it.

JavaScript values that the code branches on are embedded as follows:
* an optional request header is `Option String` (`none` for `undefined`);
* a header-directive value is `Option String` (`none` for `false`/`null`/
  `undefined`); JS truthiness of such a value is `none`/`""` ↦ false;
* the `origin` option is the inductive `OriginRule` (string, RegExp —
  embedded as its `test` function —, array of rules, or any other value
  carried with its truthiness);
* `methods` / `allowedHeaders` / `exposedHeaders` options are `StrList`
  (string or array of strings), absent fields are `Option`;
* `maxAge` is `MaxAgeVal` (a number, a string, or absent).
-/

namespace Cors

/-- JS string of a possibly-undefined value, as a RegExp `test` argument
coerces it: `String(undefined) = "undefined"`. -/
def jsStr : Option String → String
  | some s => s
  | none => "undefined"

/-- Truthiness of a header-directive value (`false`/`null`/`undefined`/`""`
are falsy). -/
def truthyV : Option String → Bool
  | none => false
  | some s => decide (s ≠ "")

/-- The `origin` option's resolved value: a fixed string, a RegExp
(embedded by its `test` function on the stringified input), an array of
rules, or any other JS value represented by its truthiness. -/
inductive OriginRule : Type where
  | str : String → OriginRule
  | pattern : (String → Bool) → OriginRule
  | arr : List OriginRule → OriginRule
  | other : Bool → OriginRule

/-- JS truthiness of an origin rule (`""` is falsy; regexes and arrays are
objects, hence truthy). -/
def originTruthy : OriginRule → Bool
  | .str s => decide (s ≠ "")
  | .pattern _ => true
  | .arr _ => true
  | .other b => b

/-- `options.origin === '*'` (strict equality against the string `'*'`). -/
def isWildcard : OriginRule → Bool
  | .str s => decide (s = "*")
  | _ => false

/-- `isOriginAllowed(origin, allowedOrigin)` from src/lib/index.js: arrays
are scanned with an early-returning loop (a short-circuiting OR), strings
are compared with `===`, RegExps are `test`ed, anything else yields its
truthiness. -/
def isOriginAllowed (origin : Option String) : OriginRule → Bool
  | .arr [] => false
  | .arr (r :: rest) => isOriginAllowed origin r || isOriginAllowed origin (.arr rest)
  | .str s => decide (origin = some s)
  | .pattern p => p (jsStr origin)
  | .other b => b

/-- A string-or-array-of-strings option value (`methods`, `allowedHeaders`,
`headers`, `exposedHeaders`). -/
inductive StrList : Type where
  | str : String → StrList
  | arr : List String → StrList
  deriving Repr, DecidableEq

/-- JS truthiness of a `StrList` (arrays are objects, hence truthy even
when empty; `""` is falsy). -/
def strListTruthy : StrList → Bool
  | .str s => decide (s ≠ "")
  | .arr _ => true

/-- `x.join(',')` when `x` has a `join` method (it is an array), else `x`
itself: the `headers.join ? headers.join(',') : headers` idiom. -/
def joinSL : StrList → String
  | .str s => s
  | .arr l => String.intercalate "," l

/-- `a || b` on optional `StrList` values under JS truthiness. -/
def jsOrSL (a b : Option StrList) : Option StrList :=
  if (a.map strListTruthy).getD false then a else b

/-- The `maxAge` option: a JS number (embedded as `Int`), a string, or
absent. -/
inductive MaxAgeVal : Type where
  | num : Int → MaxAgeVal
  | str : String → MaxAgeVal
  | absent : MaxAgeVal
  deriving Repr, DecidableEq

/-- The request view the middleware reads: `req.method`,
`req.headers.origin`, and `req.headers['access-control-request-headers']`. -/
structure Req : Type where
  method : Option String
  originHeader : Option String
  acrh : Option String
  deriving Repr, DecidableEq

/-- The resolved options object as `cors(options, req, res, next)` sees it:
every field concrete, `origin` already a non-callback rule. -/
structure COpts : Type where
  origin : OriginRule
  methods : StrList
  preflightContinue : Bool
  optionsSuccessStatus : Nat
  credentials : Bool := false
  allowedHeaders : Option StrList := none
  headers : Option StrList := none
  exposedHeaders : Option StrList := none
  maxAge : MaxAgeVal := .absent

/-- A header entry as pushed onto the `headers` array: `null`, a
`{key, value}` object, or a nested array of entries. -/
inductive HItem : Type where
  | hnull : HItem
  | hdr : String → Option String → HItem
  | grp : List HItem → HItem

/-- The response sink: headers set so far (ordered, overwrite semantics),
the accumulated `Vary` tokens, the status code, and whether `res.end()` has
been called. -/
structure Res : Type where
  headersSet : List (String × String)
  varyTokens : List String
  statusCode : Option Nat
  ended : Bool
  deriving Repr, DecidableEq

/-- A fresh response sink. -/
def Res.empty : Res := ⟨[], [], none, false⟩

/-- `res.setHeader(k, v)`: overwrite an existing header of that name, else
append. -/
def setH (hs : List (String × String)) (k v : String) : List (String × String) :=
  match hs with
  | [] => [(k, v)]
  | (k', v') :: t => if k' = k then (k, v) :: t else (k', v') :: setH t k v

/-- Look a header up in the sink (first entry with the given name). -/
def getH : List (String × String) → String → Option String
  | [], _ => none
  | (k', v') :: t, k => if k' = k then some v' else getH t k

/-- Modelled from the spec: the external `vary` capability merges a token
additively into the existing `Vary` header, de-duplicating against tokens
already present. -/
def addVary (tokens : List String) (v : String) : List String :=
  if v ∈ tokens then tokens else tokens ++ [v]

/-- One `{key, value}` directive applied to the sink, as `applyHeaders`
does it: a truthy-valued `Vary` directive is merged via `vary`, any other
truthy-valued directive is set verbatim, a falsy value is skipped. -/
def applyKV (k : String) (v : Option String) (res : Res) : Res :=
  if k = "Vary" ∧ truthyV v then
    { res with varyTokens := addVary res.varyTokens (v.getD "") }
  else if truthyV v then
    { res with headersSet := setH res.headersSet k (v.getD "") }
  else res

mutual

/-- `applyHeaders` on a single entry: skip `null`, recurse into arrays,
apply objects. -/
def applyItem : HItem → Res → Res
  | .hnull, res => res
  | .hdr k v, res => applyKV k v res
  | .grp l, res => applyList l res

/-- `applyHeaders(headers, res)`: the in-order loop over the entries. -/
def applyList : List HItem → Res → Res
  | [], res => res
  | h :: t, res => applyList t (applyItem h res)

end

/-- `configureOrigin(options, req)` from src/lib/index.js. -/
def configureOrigin (options : COpts) (req : Req) : List HItem :=
  let requestOrigin := req.originHeader
  if originTruthy options.origin = false ∨ isWildcard options.origin then
    [HItem.grp [HItem.hdr "Access-Control-Allow-Origin" (some "*")]]
  else
    match options.origin with
    | .str s =>
        [HItem.grp [HItem.hdr "Access-Control-Allow-Origin" (some s)],
         HItem.grp [HItem.hdr "Vary" (some "Origin")]]
    | o =>
        let isAllowed := isOriginAllowed requestOrigin o
        [HItem.grp [HItem.hdr "Access-Control-Allow-Origin"
            (if isAllowed then requestOrigin else none)],
         HItem.grp [HItem.hdr "Vary" (some "Origin")]]

/-- `configureMethods(options)`. -/
def configureMethods (options : COpts) : HItem :=
  HItem.hdr "Access-Control-Allow-Methods" (some (joinSL options.methods))

/-- `configureCredentials(options)`: a directive iff `credentials === true`,
else `null`. -/
def configureCredentials (options : COpts) : HItem :=
  if options.credentials then
    HItem.hdr "Access-Control-Allow-Credentials" (some "true")
  else HItem.hnull

/-- `configureAllowedHeaders(options, req)`: fall back from
`options.allowedHeaders` to `options.headers`; when both are falsy, reflect
the request's `Access-Control-Request-Headers` header and emit
`Vary: Access-Control-Request-Headers`; emit the `Access-Control-Allow-Headers`
directive only when the resulting value is a non-empty string. -/
def configureAllowedHeaders (options : COpts) (req : Req) : List HItem :=
  let allowedHeaders := jsOrSL options.allowedHeaders options.headers
  if ((allowedHeaders.map strListTruthy).getD false) = false then
    let reflected := req.acrh
    let varyOnly := [HItem.grp [HItem.hdr "Vary" (some "Access-Control-Request-Headers")]]
    match reflected with
    | some s =>
        if s.length ≠ 0 then
          varyOnly ++ [HItem.grp [HItem.hdr "Access-Control-Allow-Headers" (some s)]]
        else varyOnly
    | none => varyOnly
  else
    match allowedHeaders with
    | some sl =>
        let s := joinSL sl
        if s.length ≠ 0 then
          [HItem.grp [HItem.hdr "Access-Control-Allow-Headers" (some s)]]
        else []
    | none => []

/-- `configureExposedHeaders(options)`. -/
def configureExposedHeaders (options : COpts) : HItem :=
  match options.exposedHeaders with
  | none => HItem.hnull
  | some sl =>
      if strListTruthy sl = false then HItem.hnull
      else
        let s := joinSL sl
        if s.length ≠ 0 then HItem.hdr "Access-Control-Expose-Headers" (some s)
        else HItem.hnull

/-- `(typeof options.maxAge === 'number' || options.maxAge) &&
options.maxAge.toString()`: the string the guard produces, or `none` when
the guard is falsy. -/
def maxAgeString : MaxAgeVal → Option String
  | .num n => some (toString n)
  | .str s => if s ≠ "" then some s else none
  | .absent => none

/-- `configureMaxAge(options)`: a directive iff the guarded string is
truthy and non-empty, else `null`. -/
def configureMaxAge (options : COpts) : HItem :=
  match maxAgeString options.maxAge with
  | some s => if s.length ≠ 0 then HItem.hdr "Access-Control-Max-Age" (some s) else HItem.hnull
  | none => HItem.hnull

/-- `toUpperCase()` on a string, character by character. -/
def jsToUpper (s : String) : String := (s.data.map Char.toUpper).asString

/-- `req.method && req.method.toUpperCase && req.method.toUpperCase()`. -/
def jsMethod : Option String → Option String
  | none => none
  | some s => if s = "" then some "" else some (jsToUpper s)

/-- The headers pushed on the preflight path, in source order. -/
def corsPreflightHeaders (options : COpts) (req : Req) : List HItem :=
  [HItem.grp (configureOrigin options req),
   configureCredentials options,
   configureMethods options,
   HItem.grp (configureAllowedHeaders options req),
   configureMaxAge options,
   configureExposedHeaders options]

/-- The headers pushed on the actual-response path, in source order. -/
def corsActualHeaders (options : COpts) (req : Req) : List HItem :=
  [HItem.grp (configureOrigin options req),
   configureCredentials options,
   configureExposedHeaders options]

/-- The result of running `cors`: the final sink state and how many times
`next()` was invoked. -/
structure CorsOutcome : Type where
  res : Res
  nextCalls : Nat
  deriving Repr, DecidableEq

/-- `cors(options, req, res, next)` from src/lib/index.js. -/
def cors (options : COpts) (req : Req) (res : Res) : CorsOutcome :=
  let method := jsMethod req.method
  if method = some "OPTIONS" then
    let res1 := applyList (corsPreflightHeaders options req) res
    if options.preflightContinue then ⟨res1, 1⟩
    else
      let res2 := { res1 with statusCode := some options.optionsSuccessStatus }
      let res3 := { res2 with headersSet := setH res2.headersSet "Content-Length" "0" }
      ⟨{ res3 with ended := true }, 0⟩
  else
    ⟨applyList (corsActualHeaders options req) res, 1⟩

/-- An error value handed to a callback; any present error is truthy. -/
def Err : Type := String

/-- The raw `origin` option before resolution: a concrete rule or a
callback `(origin, cb)`; the callback yields `(err, originRule)`. -/
inductive RawOriginVal : Type where
  | rule : OriginRule → RawOriginVal
  | func : (Option String → Option Err × OriginRule) → RawOriginVal

/-- A user-supplied options object: absent keys are `none` and fall back to
the defaults on merge. -/
structure RawOpts : Type where
  origin : Option RawOriginVal := none
  methods : Option StrList := none
  preflightContinue : Option Bool := none
  optionsSuccessStatus : Option Nat := none
  credentials : Option Bool := none
  allowedHeaders : Option StrList := none
  headers : Option StrList := none
  exposedHeaders : Option StrList := none
  maxAge : Option MaxAgeVal := none

/-- The merged options before origin resolution (`origin` may still be a
callback). -/
structure MergedOpts : Type where
  origin : RawOriginVal
  methods : StrList
  preflightContinue : Bool
  optionsSuccessStatus : Nat
  credentials : Bool
  allowedHeaders : Option StrList
  headers : Option StrList
  exposedHeaders : Option StrList
  maxAge : MaxAgeVal

/-- `assign({}, defaults, options)`: the user's present keys over the
defaults `{origin: '*', methods: 'GET,HEAD,PUT,PATCH,POST,DELETE',
preflightContinue: false, optionsSuccessStatus: 204}`. -/
def mergeOpts (o : Option RawOpts) : MergedOpts :=
  let r := o.getD {}
  { origin := r.origin.getD (.rule (.str "*")),
    methods := r.methods.getD (.str "GET,HEAD,PUT,PATCH,POST,DELETE"),
    preflightContinue := r.preflightContinue.getD false,
    optionsSuccessStatus := r.optionsSuccessStatus.getD 204,
    credentials := r.credentials.getD false,
    allowedHeaders := r.allowedHeaders,
    headers := r.headers,
    exposedHeaders := r.exposedHeaders,
    maxAge := r.maxAge.getD .absent }

/-- Replace the merged options' origin by the resolved rule
(`corsOptions.origin = origin`). -/
def toCOpts (m : MergedOpts) (origin : OriginRule) : COpts :=
  { origin := origin,
    methods := m.methods,
    preflightContinue := m.preflightContinue,
    optionsSuccessStatus := m.optionsSuccessStatus,
    credentials := m.credentials,
    allowedHeaders := m.allowedHeaders,
    headers := m.headers,
    exposedHeaders := m.exposedHeaders,
    maxAge := m.maxAge }

/-- What `middlewareWrapper` is built from: a static options object or an
options callback `(req, cb)` yielding `(err, options)`. -/
inductive OptSource : Type where
  | static : RawOpts → OptSource
  | callback : (Req → Option Err × Option RawOpts) → OptSource

/-- The observable outcome of one run of the wrapped middleware: the
continuation was invoked (with the error it received, if any) with the sink
in the given state, or the response was ended without invoking it. -/
inductive MWResult : Type where
  | next : Option Err → Res → MWResult
  | halted : Res → MWResult

/-- `middlewareWrapper(o)` applied to one request: resolve the options,
resolve the origin, then dispatch to `cors` — or short-circuit to `next`
on an options error, a falsy origin option, an origin-callback error, or a
falsy resolved origin. -/
def corsMiddleware (o : OptSource) (req : Req) (res : Res) : MWResult :=
  let step := match o with
    | .static ro => (none, some ro)
    | .callback f => f req
  match step with
  | (some e, _) => MWResult.next (some e) res
  | (none, options) =>
      let corsOptions := mergeOpts options
      let originCallback : Option (Option String → Option Err × OriginRule) :=
        match corsOptions.origin with
        | .func f => some f
        | .rule r => if originTruthy r then some (fun _ => (none, r)) else none
      match originCallback with
      | none => MWResult.next none res
      | some f =>
          let r2 := f req.originHeader
          if r2.1.isSome ∨ originTruthy r2.2 = false then MWResult.next r2.1 res
          else
            let out := cors (toCOpts corsOptions r2.2) req res
            if out.nextCalls = 1 then MWResult.next none out.res
            else MWResult.halted out.res

end Cors

namespace Cors

theorem getH_setH_self (hs : List (String × String)) (k v : String) :
    getH (setH hs k v) k = some v := by
  induction hs with
  | nil => simp [setH, getH]
  | cons p t ih =>
      obtain ⟨k', v'⟩ := p
      by_cases h : k' = k
      · simp [setH, getH, h]
      · simp [setH, getH, h, ih]

theorem toDigitsCore_ne_nil (b : Nat) :
    ∀ (f n : Nat) (ds : List Char), ds ≠ [] → Nat.toDigitsCore b f n ds ≠ []
  | 0, _, _, h => h
  | f + 1, n, ds, _ => by
      unfold Nat.toDigitsCore
      dsimp only
      split
      · exact List.cons_ne_nil _ _
      · exact toDigitsCore_ne_nil b f _ _ (List.cons_ne_nil _ _)

theorem toDigits_ne_nil (b n : Nat) : Nat.toDigits b n ≠ [] := by
  unfold Nat.toDigits Nat.toDigitsCore
  dsimp only
  split
  · exact List.cons_ne_nil _ _
  · exact toDigitsCore_ne_nil b n _ _ (List.cons_ne_nil _ _)

theorem Nat_repr_ne_empty (n : Nat) : Nat.repr n ≠ "" := by
  intro h
  have h2 : Nat.toDigits 10 n = [] := congrArg String.data h
  exact toDigits_ne_nil 10 n h2

theorem Int_toString_ne_empty (n : Int) : toString n ≠ "" := by
  cases n with
  | ofNat m => exact Nat_repr_ne_empty m
  | negSucc m =>
      intro h
      have h2 : '-' :: (Nat.repr (m + 1)).data = [] := congrArg String.data h
      exact List.cons_ne_nil _ _ h2

theorem String_length_eq_zero_iff (s : String) : s.length = 0 ↔ s = "" := by
  obtain ⟨l⟩ := s
  constructor
  · intro h
    have : l = [] := List.length_eq_zero.mp h
    subst this
    rfl
  · intro h
    have : l = [] := congrArg String.data h
    subst this
    rfl

/-- A concrete default options object (the library defaults), used by the
witness theorems. -/
def optsDefault : COpts :=
  { origin := .str "*", methods := .str "GET,HEAD,PUT,PATCH,POST,DELETE",
    preflightContinue := false, optionsSuccessStatus := 204 }

/-- C1: for every request whose method uppercases to `OPTIONS`, if
`preflightContinue` is false the middleware sets the status code to
`optionsSuccessStatus`, sets `Content-Length: 0`, ends the response and
never calls the continuation; if it is true the continuation is called
exactly once, with the composed preflight headers already applied to the
response sink. -/
theorem claim_preflight_dispatch (options : COpts) (req : Req) (res : Res)
    (h : jsMethod req.method = some "OPTIONS") :
    (options.preflightContinue = false →
      (cors options req res).res.statusCode = some options.optionsSuccessStatus ∧
      getH (cors options req res).res.headersSet "Content-Length" = some "0" ∧
      (cors options req res).res.ended = true ∧
      (cors options req res).nextCalls = 0) ∧
    (options.preflightContinue = true →
      cors options req res = ⟨applyList (corsPreflightHeaders options req) res, 1⟩) := by
  refine ⟨fun hpc => ?_, fun hpc => ?_⟩ <;>
    simp [cors, h, hpc, getH_setH_self]

theorem claim_preflight_dispatch_witness :
    (cors optsDefault ⟨some "OPTIONS", none, none⟩ Res.empty).nextCalls = 0 ∧
    (cors optsDefault ⟨some "OPTIONS", none, none⟩ Res.empty).res.statusCode = some 204 ∧
    getH (cors optsDefault ⟨some "OPTIONS", none, none⟩ Res.empty).res.headersSet
      "Content-Length" = some "0" :=
  have h := (claim_preflight_dispatch optsDefault ⟨some "OPTIONS", none, none⟩
    Res.empty (by decide)).1 rfl
  ⟨h.2.2.2, h.1, h.2.1⟩

/-- C3: for every request, when the origin rule is the wildcard string
`'*'`, the origin primitive emits exactly `Access-Control-Allow-Origin: *`
— regardless of the request's `Origin` header — and no `Vary: Origin`
directive. -/
theorem claim_wildcard_origin (options : COpts) (req : Req)
    (h : options.origin = .str "*") :
    configureOrigin options req =
      [HItem.grp [HItem.hdr "Access-Control-Allow-Origin" (some "*")]] ∧
    getH (applyList (configureOrigin options req) Res.empty).headersSet
      "Access-Control-Allow-Origin" = some "*" ∧
    (applyList (configureOrigin options req) Res.empty).varyTokens = [] := by
  have h1 : configureOrigin options req =
      [HItem.grp [HItem.hdr "Access-Control-Allow-Origin" (some "*")]] := by
    simp [configureOrigin, h, isWildcard]
  refine ⟨h1, ?_, ?_⟩ <;>
    simp [h1, applyList, applyItem, applyKV, truthyV, setH, getH, Res.empty]

theorem claim_wildcard_origin_witness :
    getH (applyList (configureOrigin optsDefault ⟨some "GET", some "http://a.com", none⟩)
      Res.empty).headersSet "Access-Control-Allow-Origin" = some "*" ∧
    (applyList (configureOrigin optsDefault ⟨some "GET", some "http://a.com", none⟩)
      Res.empty).varyTokens = [] :=
  have h := claim_wildcard_origin optsDefault ⟨some "GET", some "http://a.com", none⟩ rfl
  ⟨h.2.1, h.2.2⟩

/-- C7: the handler is a pure function of the resolved policy and the
request view (method, `Origin` header, `Access-Control-Request-Headers`
header): two runs over identical views produce identical outcomes. -/
theorem claim_deterministic (options : COpts) (req1 req2 : Req) (res : Res)
    (h1 : req1.method = req2.method) (h2 : req1.originHeader = req2.originHeader)
    (h3 : req1.acrh = req2.acrh) :
    cors options req1 res = cors options req2 res := by
  obtain ⟨m1, o1, a1⟩ := req1
  obtain ⟨m2, o2, a2⟩ := req2
  cases h1
  cases h2
  cases h3
  rfl

theorem claim_deterministic_witness :
    cors optsDefault ⟨some "GET", some "http://a.com", none⟩ Res.empty =
      cors optsDefault ⟨some "GET", some "http://a.com", none⟩ Res.empty :=
  claim_deterministic optsDefault ⟨some "GET", some "http://a.com", none⟩
    ⟨some "GET", some "http://a.com", none⟩ Res.empty rfl rfl rfl


/-- In the non-wildcard, non-fixed-string branch, `configureOrigin`
reflects the request origin when allowed and pushes a falsy value
otherwise, plus a `Vary: Origin` directive. -/
theorem configureOrigin_reflect (options : COpts) (req : Req)
    (hns : ∀ s, options.origin ≠ OriginRule.str s)
    (ht : originTruthy options.origin = true) :
    configureOrigin options req =
      [HItem.grp [HItem.hdr "Access-Control-Allow-Origin"
          (if isOriginAllowed req.originHeader options.origin then req.originHeader
           else none)],
       HItem.grp [HItem.hdr "Vary" (some "Origin")]] := by
  rcases ho : options.origin with s | p | l | b
  · exact absurd ho (hns s)
  · simp [configureOrigin, ho, originTruthy, isWildcard]
  · simp [configureOrigin, ho, originTruthy, isWildcard]
  · have hb : b = true := by
      have := ht
      rw [ho] at this
      simpa [originTruthy] using this
    subst hb
    simp [configureOrigin, ho, originTruthy, isWildcard]

/-- Applying the reflect-branch directives to a fresh sink. -/
theorem applyList_reflect (v : Option String) :
    applyList [HItem.grp [HItem.hdr "Access-Control-Allow-Origin" v],
      HItem.grp [HItem.hdr "Vary" (some "Origin")]] Res.empty =
    ⟨if truthyV v then [("Access-Control-Allow-Origin", v.getD "")] else [],
     ["Origin"], none, false⟩ := by
  match v with
  | none => simp [applyList, applyItem, applyKV, truthyV, setH, addVary, Res.empty]
  | some s =>
      by_cases h : s = "" <;>
        simp [applyList, applyItem, applyKV, truthyV, setH, addVary, Res.empty, h]


/-- For a pattern or array origin rule, `configureOrigin` takes the
reflect branch. -/
theorem configureOrigin_pattern_list (options : COpts) (req : Req)
    (hshape : (∃ l, options.origin = .arr l) ∨ (∃ p, options.origin = .pattern p)) :
    configureOrigin options req =
      [HItem.grp [HItem.hdr "Access-Control-Allow-Origin"
          (if isOriginAllowed req.originHeader options.origin then req.originHeader
           else none)],
       HItem.grp [HItem.hdr "Vary" (some "Origin")]] := by
  have hns : ∀ s, options.origin ≠ OriginRule.str s := by
    rcases hshape with ⟨l, hl⟩ | ⟨p, hp⟩
    · intro s
      simp [hl]
    · intro s
      simp [hp]
  have ht : originTruthy options.origin = true := by
    rcases hshape with ⟨l, hl⟩ | ⟨p, hp⟩
    · simp [hl, originTruthy]
    · simp [hp, originTruthy]
  exact configureOrigin_reflect options req hns ht

/-- C2: a pattern (RegExp) or (possibly nested) array origin rule is
matched against the request's `Origin` header by a short-circuiting OR
over the list — string equality for strings, regex test for patterns; on
a match the `Origin` value is reflected verbatim into
`Access-Control-Allow-Origin`, on a failure no such header is set, and in
both cases `Vary` contains `Origin`. -/
theorem claim_origin_pattern_list :
    (∀ (o : Option String) (r : OriginRule) (rs : List OriginRule),
        isOriginAllowed o (.arr (r :: rs)) =
          (isOriginAllowed o r || isOriginAllowed o (.arr rs))) ∧
    (∀ (o : Option String), isOriginAllowed o (.arr []) = false) ∧
    (∀ (o : Option String) (s : String),
        isOriginAllowed o (.str s) = decide (o = some s)) ∧
    (∀ (o : Option String) (p : String → Bool),
        isOriginAllowed o (.pattern p) = p (jsStr o)) ∧
    (∀ (options : COpts) (req : Req),
        ((∃ l, options.origin = .arr l) ∨ (∃ p, options.origin = .pattern p)) →
        configureOrigin options req =
          [HItem.grp [HItem.hdr "Access-Control-Allow-Origin"
              (if isOriginAllowed req.originHeader options.origin then req.originHeader
               else none)],
           HItem.grp [HItem.hdr "Vary" (some "Origin")]]) ∧
    (∀ (options : COpts) (req : Req) (o : String),
        ((∃ l, options.origin = .arr l) ∨ (∃ p, options.origin = .pattern p)) →
        req.originHeader = some o → o ≠ "" →
        (isOriginAllowed (some o) options.origin = true →
          getH (applyList (configureOrigin options req) Res.empty).headersSet
            "Access-Control-Allow-Origin" = some o) ∧
        (isOriginAllowed (some o) options.origin = false →
          getH (applyList (configureOrigin options req) Res.empty).headersSet
            "Access-Control-Allow-Origin" = none) ∧
        "Origin" ∈ (applyList (configureOrigin options req) Res.empty).varyTokens) := by
  refine ⟨fun o r rs => by simp [isOriginAllowed],
          fun o => by simp [isOriginAllowed],
          fun o s => by simp [isOriginAllowed],
          fun o p => by simp [isOriginAllowed],
          fun options req hshape => configureOrigin_pattern_list options req hshape,
          fun options req o hshape hro ho => ?_⟩
  have hc := configureOrigin_pattern_list options req hshape
  rw [hro] at hc
  refine ⟨fun hA => ?_, fun hA => ?_, ?_⟩
  · rw [hc, hA] at *
    simp [applyList_reflect, truthyV, ho, getH]
  · rw [hc, hA] at *
    simp [applyList_reflect, truthyV, getH]
  · by_cases hA : isOriginAllowed (some o) options.origin <;>
      simp [hc, hA, applyList_reflect]

theorem claim_origin_pattern_list_witness :
    isOriginAllowed (some "http://a.com")
      (.arr [.str "http://b.com", .str "http://a.com"]) = true ∧
    getH (applyList (configureOrigin
        { optsDefault with origin := .arr [.str "http://b.com", .str "http://a.com"] }
        ⟨some "GET", some "http://a.com", none⟩) Res.empty).headersSet
      "Access-Control-Allow-Origin" = some "http://a.com" ∧
    "Origin" ∈ (applyList (configureOrigin
        { optsDefault with origin := .arr [.str "http://b.com", .str "http://a.com"] }
        ⟨some "GET", some "http://a.com", none⟩) Res.empty).varyTokens := by
  have hA : isOriginAllowed (some "http://a.com")
      (OriginRule.arr [.str "http://b.com", .str "http://a.com"]) = true := by
    simp [isOriginAllowed]
  have h := claim_origin_pattern_list.2.2.2.2.2
    { optsDefault with origin := .arr [.str "http://b.com", .str "http://a.com"] }
    ⟨some "GET", some "http://a.com", none⟩ "http://a.com"
    (Or.inl ⟨_, rfl⟩) rfl (by simp)
  exact ⟨hA, h.1 hA, h.2.2⟩

/-- C10: a truthy origin rule that is neither a string, nor a RegExp, nor
an array (e.g. `true`) makes `isOriginAllowed` return its truthiness, so
every request that carries a (non-empty) `Origin` header gets it reflected
into `Access-Control-Allow-Origin`, together with `Vary: Origin`. -/
theorem claim_truthy_other_origin :
    (∀ (o : Option String) (b : Bool), isOriginAllowed o (.other b) = b) ∧
    (∀ (options : COpts) (req : Req),
        options.origin = .other true →
        configureOrigin options req =
          [HItem.grp [HItem.hdr "Access-Control-Allow-Origin" req.originHeader],
           HItem.grp [HItem.hdr "Vary" (some "Origin")]]) ∧
    (∀ (options : COpts) (req : Req) (o : String),
        options.origin = .other true → req.originHeader = some o → o ≠ "" →
        getH (applyList (configureOrigin options req) Res.empty).headersSet
          "Access-Control-Allow-Origin" = some o ∧
        "Origin" ∈ (applyList (configureOrigin options req) Res.empty).varyTokens) := by
  have hshape : ∀ (options : COpts) (req : Req), options.origin = .other true →
      configureOrigin options req =
        [HItem.grp [HItem.hdr "Access-Control-Allow-Origin" req.originHeader],
         HItem.grp [HItem.hdr "Vary" (some "Origin")]] := by
    intro options req hrule
    have hc := configureOrigin_reflect options req
      (by intro s; simp [hrule]) (by simp [hrule, originTruthy])
    rw [hrule] at hc
    rw [show isOriginAllowed req.originHeader (OriginRule.other true) = true by
      simp [isOriginAllowed]] at hc
    simpa using hc
  refine ⟨fun o b => by simp [isOriginAllowed], hshape,
    fun options req o hrule hro ho => ?_⟩
  have hc := hshape options req hrule
  rw [hro] at hc
  simp [hc, applyList_reflect, truthyV, ho, getH]

theorem claim_truthy_other_origin_witness :
    getH (applyList (configureOrigin { optsDefault with origin := .other true }
        ⟨some "GET", some "http://a.com", none⟩) Res.empty).headersSet
      "Access-Control-Allow-Origin" = some "http://a.com" ∧
    "Origin" ∈ (applyList (configureOrigin { optsDefault with origin := .other true }
        ⟨some "GET", some "http://a.com", none⟩) Res.empty).varyTokens :=
  claim_truthy_other_origin.2.2 { optsDefault with origin := .other true }
    ⟨some "GET", some "http://a.com", none⟩ "http://a.com" rfl rfl (by simp)


/-- C5: `configureMaxAge` emits the `Access-Control-Max-Age` directive for
every numeric `maxAge` — including the falsy number `0`, via the
typeof-number branch — with the number's string form as value; a full
preflight run with `maxAge: 0` carries `Access-Control-Max-Age: 0`; in
general the directive is emitted exactly when `maxAge` is a number or a
truthy (string) value with non-empty string form. -/
theorem claim_max_age_zero :
    (∀ (options : COpts) (n : Int), options.maxAge = .num n →
        configureMaxAge options = .hdr "Access-Control-Max-Age" (some (toString n))) ∧
    (getH (cors { optsDefault with maxAge := .num 0 }
        ⟨some "OPTIONS", none, none⟩ Res.empty).res.headersSet
      "Access-Control-Max-Age" = some "0") ∧
    (∀ (options : COpts),
        (∃ v, configureMaxAge options = .hdr "Access-Control-Max-Age" v) ↔
          ((∃ n, options.maxAge = .num n) ∨
           (∃ s, options.maxAge = .str s ∧ s ≠ ""))) := by
  have hnum : ∀ (options : COpts) (n : Int), options.maxAge = .num n →
      configureMaxAge options = .hdr "Access-Control-Max-Age" (some (toString n)) := by
    intro options n h
    have hne : (toString n).length ≠ 0 := by
      intro hz
      exact Int_toString_ne_empty n ((String_length_eq_zero_iff _).mp hz)
    simp [configureMaxAge, maxAgeString, h, hne]
  refine ⟨hnum, ?_, fun options => ⟨fun ⟨v, hv⟩ => ?_, fun h => ?_⟩⟩
  · simp [cors, jsMethod, jsToUpper, corsPreflightHeaders, configureOrigin,
      originTruthy, isWildcard, configureCredentials, configureMethods,
      configureAllowedHeaders, jsOrSL, configureMaxAge, maxAgeString,
      configureExposedHeaders, optsDefault, applyList, applyItem, applyKV,
      truthyV, addVary, setH, getH, joinSL, Res.empty]
    rfl
  · rcases hma : options.maxAge with n | s | _
    · exact Or.inl ⟨n, rfl⟩
    · by_cases hs : s = ""
      · rw [configureMaxAge, hma, hs] at hv
        simp [maxAgeString] at hv
      · exact Or.inr ⟨s, rfl, hs⟩
    · rw [configureMaxAge, hma] at hv
      simp [maxAgeString] at hv
  · rcases h with ⟨n, hn⟩ | ⟨s, hs, hne⟩
    · exact ⟨some (toString n), hnum options n hn⟩
    · refine ⟨some s, ?_⟩
      have hl : s.length ≠ 0 := by
        intro hz
        exact hne ((String_length_eq_zero_iff _).mp hz)
      simp [configureMaxAge, maxAgeString, hs, hne, hl]

theorem claim_max_age_zero_witness :
    configureMaxAge { optsDefault with maxAge := .num 0 } =
      .hdr "Access-Control-Max-Age" (some "0") :=
  claim_max_age_zero.1 { optsDefault with maxAge := .num 0 } 0 rfl

/-- C6: on a preflight with no configured allow-list, a non-empty
`Access-Control-Request-Headers` request header is reflected verbatim into
`Access-Control-Allow-Headers` and `Vary` contains
`Access-Control-Request-Headers`; a configured explicit list is joined
with commas and emitted instead, and an empty resulting value yields no
`Access-Control-Allow-Headers` header. -/
theorem claim_allowed_headers_reflect :
    (∀ (options : COpts) (req : Req) (v : String),
        options.allowedHeaders = none → options.headers = none →
        req.acrh = some v → v ≠ "" →
        configureAllowedHeaders options req =
          [HItem.grp [HItem.hdr "Vary" (some "Access-Control-Request-Headers")],
           HItem.grp [HItem.hdr "Access-Control-Allow-Headers" (some v)]] ∧
        getH (applyList (configureAllowedHeaders options req) Res.empty).headersSet
          "Access-Control-Allow-Headers" = some v ∧
        "Access-Control-Request-Headers" ∈
          (applyList (configureAllowedHeaders options req) Res.empty).varyTokens) ∧
    (∀ (options : COpts) (req : Req) (l : List String),
        options.allowedHeaders = some (.arr l) →
        configureAllowedHeaders options req =
          (if (String.intercalate "," l).length ≠ 0 then
            [HItem.grp [HItem.hdr "Access-Control-Allow-Headers"
                (some (String.intercalate "," l))]]
           else []) ∧
        (String.intercalate "," l = "" →
          getH (applyList (configureAllowedHeaders options req) Res.empty).headersSet
            "Access-Control-Allow-Headers" = none)) := by
  constructor
  · intro options req v h1 h2 h3 hv
    have hl : v.length ≠ 0 := by
      intro hz
      exact hv ((String_length_eq_zero_iff _).mp hz)
    have hc : configureAllowedHeaders options req =
        [HItem.grp [HItem.hdr "Vary" (some "Access-Control-Request-Headers")],
         HItem.grp [HItem.hdr "Access-Control-Allow-Headers" (some v)]] := by
      simp [configureAllowedHeaders, jsOrSL, h1, h2, h3, hl]
    refine ⟨hc, ?_, ?_⟩ <;>
      simp [hc, applyList, applyItem, applyKV, truthyV, hv, addVary, setH, getH,
        Res.empty]
  · intro options req l h1
    have hc : configureAllowedHeaders options req =
        (if (String.intercalate "," l).length ≠ 0 then
          [HItem.grp [HItem.hdr "Access-Control-Allow-Headers"
              (some (String.intercalate "," l))]]
         else []) := by
      simp [configureAllowedHeaders, jsOrSL, h1, strListTruthy, joinSL]
    refine ⟨hc, fun hemp => ?_⟩
    rw [hc, hemp]
    simp [applyList, getH, Res.empty]

theorem claim_allowed_headers_reflect_witness :
    getH (applyList (configureAllowedHeaders optsDefault
        ⟨some "OPTIONS", none, some "X-Foo,X-Bar"⟩) Res.empty).headersSet
      "Access-Control-Allow-Headers" = some "X-Foo,X-Bar" ∧
    "Access-Control-Request-Headers" ∈ (applyList (configureAllowedHeaders optsDefault
        ⟨some "OPTIONS", none, some "X-Foo,X-Bar"⟩) Res.empty).varyTokens :=
  have h := claim_allowed_headers_reflect.1 optsDefault
    ⟨some "OPTIONS", none, some "X-Foo,X-Bar"⟩ "X-Foo,X-Bar" rfl rfl rfl (by simp)
  ⟨h.2.1, h.2.2⟩

/-- C8: when `allowedHeaders` is absent or falsy, the allow-list falls
back to the legacy `options.headers` field; a configured (truthy)
`options.headers` therefore suppresses both the reflection of
`Access-Control-Request-Headers` and the `Vary:
Access-Control-Request-Headers` directive. -/
theorem claim_legacy_headers_fallback (options : COpts) (req : Req) (hl : StrList)
    (ha : options.allowedHeaders = none ∨ options.allowedHeaders = some (.str ""))
    (hh : options.headers = some hl) (ht : strListTruthy hl = true) :
    configureAllowedHeaders options req =
      (if (joinSL hl).length ≠ 0 then
        [HItem.grp [HItem.hdr "Access-Control-Allow-Headers" (some (joinSL hl))]]
       else []) := by
  rcases hl with s | l
  · have hs : s ≠ "" := by simpa [strListTruthy] using ht
    rcases ha with h | h <;>
      simp [configureAllowedHeaders, jsOrSL, h, hh, strListTruthy, hs, joinSL]
  · rcases ha with h | h <;>
      simp [configureAllowedHeaders, jsOrSL, h, hh, strListTruthy, joinSL]

theorem claim_legacy_headers_fallback_witness :
    configureAllowedHeaders { optsDefault with headers := some (.arr ["X-Leg"]) }
      ⟨some "OPTIONS", none, some "X-Foo"⟩ =
      [HItem.grp [HItem.hdr "Access-Control-Allow-Headers" (some "X-Leg")]] := by
  have h := claim_legacy_headers_fallback
    { optsDefault with headers := some (.arr ["X-Leg"]) }
    ⟨some "OPTIONS", none, some "X-Foo"⟩ (.arr ["X-Leg"]) (Or.inl rfl) rfl rfl
  simpa [joinSL] using h

/-- C9: with no allow-list configured and no
`Access-Control-Request-Headers` on the request, the
`Vary: Access-Control-Request-Headers` directive is still emitted and
merged, while no `Access-Control-Allow-Headers` header is set. -/
theorem claim_vary_acrh_unconditional (options : COpts) (req : Req)
    (h1 : options.allowedHeaders = none) (h2 : options.headers = none)
    (h3 : req.acrh = none) :
    configureAllowedHeaders options req =
      [HItem.grp [HItem.hdr "Vary" (some "Access-Control-Request-Headers")]] ∧
    (applyList (configureAllowedHeaders options req) Res.empty).varyTokens =
      ["Access-Control-Request-Headers"] ∧
    getH (applyList (configureAllowedHeaders options req) Res.empty).headersSet
      "Access-Control-Allow-Headers" = none := by
  have hc : configureAllowedHeaders options req =
      [HItem.grp [HItem.hdr "Vary" (some "Access-Control-Request-Headers")]] := by
    simp [configureAllowedHeaders, jsOrSL, h1, h2, h3]
  refine ⟨hc, ?_, ?_⟩ <;>
    simp [hc, applyList, applyItem, applyKV, truthyV, addVary, getH, Res.empty]

theorem claim_vary_acrh_unconditional_witness :
    (applyList (configureAllowedHeaders optsDefault ⟨some "OPTIONS", none, none⟩)
      Res.empty).varyTokens = ["Access-Control-Request-Headers"] ∧
    getH (applyList (configureAllowedHeaders optsDefault ⟨some "OPTIONS", none, none⟩)
      Res.empty).headersSet "Access-Control-Allow-Headers" = none :=
  have h := claim_vary_acrh_unconditional optsDefault
    ⟨some "OPTIONS", none, none⟩ rfl rfl rfl
  ⟨h.2.1, h.2.2⟩

/-- C4: a falsy resolved origin — a falsy origin option, or an origin
callback yielding a falsy value without an error — makes the wrapped
middleware invoke the continuation with no error and an untouched response
sink (zero CORS headers); a disallowed (but truthy) origin rule instead
still composes headers and emits `Vary: Origin`. -/
theorem claim_falsy_origin_skips :
    (∀ (ro : RawOpts) (req : Req) (res : Res) (r : OriginRule),
        ro.origin = some (.rule r) → originTruthy r = false →
        corsMiddleware (.static ro) req res = .next none res) ∧
    (∀ (ro : RawOpts) (req : Req) (res : Res)
        (g : Option String → Option Err × OriginRule) (r : OriginRule),
        ro.origin = some (.func g) → g req.originHeader = (none, r) →
        originTruthy r = false →
        corsMiddleware (.static ro) req res = .next none res) ∧
    (∀ (l : List OriginRule) (req : Req),
        jsMethod req.method ≠ some "OPTIONS" →
        isOriginAllowed req.originHeader (.arr l) = false →
        corsMiddleware (.static { origin := some (.rule (.arr l)) }) req Res.empty =
          .next none ⟨[], ["Origin"], none, false⟩) := by
  refine ⟨fun ro req res r h1 h2 => ?_, fun ro req res g r h1 h2 h3 => ?_,
    fun l req hm hA => ?_⟩
  · simp [corsMiddleware, mergeOpts, h1, h2]
  · simp [corsMiddleware, mergeOpts, h1, h2, h3]
  · simp [corsMiddleware, mergeOpts, toCOpts, cors, hm, hA, corsActualHeaders,
      configureOrigin, originTruthy, isWildcard, configureCredentials,
      configureExposedHeaders, applyList, applyItem, applyKV, truthyV, addVary,
      Res.empty]

theorem claim_falsy_origin_skips_witness :
    corsMiddleware (.static { origin := some (.rule (.other false)) })
      ⟨some "GET", some "http://a.com", none⟩ Res.empty = .next none Res.empty :=
  claim_falsy_origin_skips.1 { origin := some (.rule (.other false)) }
    ⟨some "GET", some "http://a.com", none⟩ Res.empty (.other false) rfl rfl

end Cors
